import Mathlib

/-!
Shallow embedding of the run-execution and result-aggregation core of the
tstyche type-test runner (src/build/tstyche.js), together with proofs that
settle the frozen claims about its specification.

The embedding covers:
* the test-declaration data model (`TestMember` / `Assertion`, brands,
  bit flags, attached diagnostics);
* run-mode resolution (`TestTreeWorker.#resolveRunMode`);
* the tree walker (`TestTreeWorker.visit` / `#visitDescribe` / `#visitTest` /
  `#visitAssertion`) as a state-passing function producing the ordered event
  stream, with the synchronous `EventEmitter.dispatch` feedback into the
  `ResultHandler` counters and the fail-fast `CancellationHandler`;
* the per-task and per-run drivers (`TaskRunner.run`, `Runner.#run`);
* the watch-mode debounce coalescing (`WatchService.watch`, `Debounce`).

External collaborators (the `ExpectService` evaluator, the compiler store,
the language service) are modelled as oracle fields on the embedded nodes,
exactly at the boundaries the code consults them.
-/

namespace Tstyche

/-- The three kinds of test members (`TestMemberBrand` in the source):
`describe` is a Group, `test` a Case, `expect` an Assertion. -/
inductive Brand where
  | describe
  | test
  | expect
deriving DecidableEq, Repr

/-- The four independent flag bits (`TestMemberFlags`: Fail = 1, Only = 2,
Skip = 4, Todo = 8), used both for a member's literal flags and for the
resolved run mode. -/
structure RunMode where
  fail : Bool := false
  only : Bool := false
  skip : Bool := false
  todo : Bool := false
deriving DecidableEq, Repr

/-- One node of the declaration tree (`TestMember` / `Assertion` in the
source).  `start` is `node.getStart()` (the source position), `diagCount`
the size of the attached-diagnostics set.  The assertion-only fields embed
the external evaluator boundary: `matchRes` is the result of
`ExpectService.match` (`none` models `undefined`), and `evalReports`
records whether, on `undefined`, the evaluator reported its own
diagnostics through the `onDiagnostics` callback (which dispatches an
`expect:error` event). -/
inductive Member : Type where
  | node
      (brand : Brand)
      (flags : RunMode)
      (name : String)
      (start : Nat)
      (diagCount : Nat)
      (isNot : Bool)
      (matcher : String)
      (matchRes : Option Bool)
      (evalReports : Bool)
      (members : List Member)

def Member.brand : Member → Brand
  | .node b _ _ _ _ _ _ _ _ _ => b

def Member.flags : Member → RunMode
  | .node _ f _ _ _ _ _ _ _ _ => f

def Member.name : Member → String
  | .node _ _ n _ _ _ _ _ _ _ => n

def Member.start : Member → Nat
  | .node _ _ _ s _ _ _ _ _ _ => s

def Member.diagCount : Member → Nat
  | .node _ _ _ _ d _ _ _ _ _ => d

def Member.isNot : Member → Bool
  | .node _ _ _ _ _ i _ _ _ _ => i

def Member.matcher : Member → String
  | .node _ _ _ _ _ _ m _ _ _ => m

def Member.matchRes : Member → Option Bool
  | .node _ _ _ _ _ _ _ r _ _ => r

def Member.evalReports : Member → Bool
  | .node _ _ _ _ _ _ _ _ e _ => e

def Member.members : Member → List Member
  | .node _ _ _ _ _ _ _ _ _ ms => ms

/-- `TestMember.validate`: the number of validation diagnostics for one
node.  A `describe` must not have a direct `expect` child; a `test` or
`expect` must only have direct `expect` children. -/
def Member.validate (m : Member) : Nat :=
  match m.brand with
  | .describe => (m.members.filter (fun c => c.brand == .expect)).length
  | .test => (m.members.filter (fun c => c.brand != .expect)).length
  | .expect => (m.members.filter (fun c => c.brand != .expect)).length

mutual

/-- One branch of `TestTree.hasOnly`:
`branch.flags & 2 || hasOnly(branch)`. -/
def hasOnlyTree : Member → Bool
  | .node _ f _ _ _ _ _ _ _ ms => f.only || hasOnlyForest ms

/-- `TestTree.hasOnly` over a member list: some node in the forest has
the Only flag literally set. -/
def hasOnlyForest : List Member → Bool
  | [] => false
  | m :: rest => hasOnlyTree m || hasOnlyForest rest

end

/-- Contiguous-substring test on character lists (the semantics of
JavaScript's `String.prototype.includes`). -/
def containsSub (needle : List Char) : List Char → Bool
  | [] => needle.isEmpty
  | c :: rest => needle.isPrefixOf (c :: rest) || containsSub needle rest

/-- Case-insensitive substring matching of an optional name filter
(`config.only != null && member.name.toLowerCase().includes(config.only.toLowerCase())`). -/
def nameMatches (pattern : Option String) (name : String) : Bool :=
  match pattern with
  | none => false
  | some p => containsSub p.toLower.toList name.toLower.toList

/-- The per-file context of a `TestTreeWorker`: the name filters and the
fail-fast switch from the resolved config, the single-entity `position` of
the task, and the computed `#hasOnly` flag. -/
structure WorkerCtx where
  only : Option String := none
  skip : Option String := none
  position : Option Nat := none
  hasOnly : Bool := false
  failFast : Bool := false
deriving Repr

/-- `TestTreeWorker.#resolveRunMode`: OR the inherited mode with the node's
local flags and filter matches; a position match forces Only and clears
Skip (`mode |= 2; mode &= ~4`). -/
def resolveRunMode (w : WorkerCtx) (mode : RunMode) (m : Member) : RunMode :=
  let mode := if m.flags.fail then { mode with fail := true } else mode
  let mode := if m.flags.only || nameMatches w.only m.name then { mode with only := true } else mode
  let mode := if m.flags.skip || nameMatches w.skip m.name then { mode with skip := true } else mode
  let mode := if m.flags.todo then { mode with todo := true } else mode
  if w.position == some m.start then { mode with only := true, skip := false } else mode

/-- One bucket record of `ResultCount`; `total` is a derived accessor in
the source (a getter summing the four stored buckets). -/
structure Counts where
  failed : Nat := 0
  passed : Nat := 0
  skipped : Nat := 0
  todo : Nat := 0
deriving DecidableEq, Repr

/-- The `total` getter of `ResultCount`. -/
def Counts.total (c : Counts) : Nat :=
  c.failed + c.passed + c.skipped + c.todo

def Counts.incFailed (c : Counts) : Counts := { c with failed := c.failed + 1 }
def Counts.incPassed (c : Counts) : Counts := { c with passed := c.passed + 1 }
def Counts.incSkipped (c : Counts) : Counts := { c with skipped := c.skipped + 1 }
def Counts.incTodo (c : Counts) : Counts := { c with todo := c.todo + 1 }

/-- The events dispatched through `EventEmitter.dispatch` that this core
emits.  Test/describe/expect events carry the source-start position of
their member as identity (the payload's result object references the
member); target and task events carry the version tag / file path. -/
inductive Event where
  | runStart
  | runEnd
  | targetStart (tag : String)
  | targetEnd (tag : String)
  | taskStart (path : String)
  | taskEnd (path : String)
  | taskError
  | describeStart (id : Nat)
  | describeEnd (id : Nat)
  | testStart (id : Nat)
  | testError (id : Nat)
  | testFail (id : Nat)
  | testPass (id : Nat)
  | testSkip (id : Nat)
  | testTodo (id : Nat)
  | expectStart (id : Nat)
  | expectError (id : Nat)
  | expectFail (id : Nat)
  | expectPass (id : Nat)
  | expectSkip (id : Nat)
  | deprecationInfo
deriving DecidableEq, Repr

/-- Whether the event's payload carries at least one error-category
diagnostic (what `CancellationHandler.handleEvent` tests).  Every
`task:error`, `test:error` and `expect:error` dispatch site builds its
diagnostics via `Diagnostic.error` or `Diagnostic.fromDiagnostics` (always
category `"error"`), and every matcher's `explain()` used by `expect:fail`
returns `Diagnostic.error` entries; `deprecation:info` carries a warning. -/
def Event.hasErrorDiagnostic : Event → Bool
  | .taskError => true
  | .testError _ => true
  | .expectError _ => true
  | .expectFail _ => true
  | _ => false

/-- A snapshot of one finished `TaskResult` (its `testCount`,
`expectCount` and final failed status), recorded at `task:end`. -/
structure TaskSnapshot where
  testCount : Counts
  expectCount : Counts
  failed : Bool
deriving DecidableEq, Repr

/-- The counter state maintained by `ResultHandler`: the current run's
`testCount`/`expectCount`/`fileCount`/`targetCount`, the current
`TaskResult`'s and `TestResult`'s counters, the status flags consulted at
`target:end`/`task:end`, and the list of finished task snapshots. -/
structure HState where
  runTestCount : Counts := {}
  runExpectCount : Counts := {}
  fileCount : Counts := {}
  targetCount : Counts := {}
  taskTestCount : Counts := {}
  taskExpectCount : Counts := {}
  testExpectCount : Counts := {}
  testActive : Bool := false
  taskFailed : Bool := false
  targetFailed : Bool := false
  finishedTasks : List TaskSnapshot := []
deriving DecidableEq, Repr

/-- `ResultHandler.handleEvent`, restricted to the counter-relevant
effects (timing fields and tree linking are omitted; statuses are kept as
the boolean flags the counting logic reads). -/
def handlerStep (h : HState) : Event → HState
  | .runStart =>
      { h with runTestCount := {}, runExpectCount := {}, fileCount := {},
               targetCount := {}, finishedTasks := [] }
  | .runEnd => h
  | .targetStart _ => { h with targetFailed := false }
  | .targetEnd _ =>
      if h.targetFailed then { h with targetCount := h.targetCount.incFailed }
      else { h with targetCount := h.targetCount.incPassed }
  | .taskStart _ =>
      { h with taskTestCount := {}, taskExpectCount := {}, taskFailed := false }
  | .taskError => { h with targetFailed := true, taskFailed := true }
  | .taskEnd _ =>
      if h.taskFailed || h.taskExpectCount.failed > 0 || h.taskTestCount.failed > 0 then
        { h with fileCount := h.fileCount.incFailed, targetFailed := true, taskFailed := true,
                 finishedTasks := h.finishedTasks ++ [⟨h.taskTestCount, h.taskExpectCount, true⟩] }
      else
        { h with fileCount := h.fileCount.incPassed,
                 finishedTasks := h.finishedTasks ++ [⟨h.taskTestCount, h.taskExpectCount, false⟩] }
  | .describeStart _ => h
  | .describeEnd _ => h
  | .testStart _ => { h with testExpectCount := {}, testActive := true }
  | .testError _ =>
      { h with runTestCount := h.runTestCount.incFailed,
               taskTestCount := h.taskTestCount.incFailed, testActive := false }
  | .testFail _ =>
      { h with runTestCount := h.runTestCount.incFailed,
               taskTestCount := h.taskTestCount.incFailed, testActive := false }
  | .testPass _ =>
      { h with runTestCount := h.runTestCount.incPassed,
               taskTestCount := h.taskTestCount.incPassed, testActive := false }
  | .testSkip _ =>
      { h with runTestCount := h.runTestCount.incSkipped,
               taskTestCount := h.taskTestCount.incSkipped, testActive := false }
  | .testTodo _ =>
      { h with runTestCount := h.runTestCount.incTodo,
               taskTestCount := h.taskTestCount.incTodo, testActive := false }
  | .expectStart _ => h
  | .expectError _ =>
      { h with runExpectCount := h.runExpectCount.incFailed,
               taskExpectCount := h.taskExpectCount.incFailed,
               testExpectCount := if h.testActive then h.testExpectCount.incFailed else h.testExpectCount }
  | .expectFail _ =>
      { h with runExpectCount := h.runExpectCount.incFailed,
               taskExpectCount := h.taskExpectCount.incFailed,
               testExpectCount := if h.testActive then h.testExpectCount.incFailed else h.testExpectCount }
  | .expectPass _ =>
      { h with runExpectCount := h.runExpectCount.incPassed,
               taskExpectCount := h.taskExpectCount.incPassed,
               testExpectCount := if h.testActive then h.testExpectCount.incPassed else h.testExpectCount }
  | .expectSkip _ =>
      { h with runExpectCount := h.runExpectCount.incSkipped,
               taskExpectCount := h.taskExpectCount.incSkipped,
               testExpectCount := if h.testActive then h.testExpectCount.incSkipped else h.testExpectCount }
  | .deprecationInfo => h

/-- Reasons of `CancellationReason`. -/
inductive CancelReason where
  | configChange
  | configError
  | failFast
  | watchClose
deriving DecidableEq, Repr

/-- The state threaded through one run: the ordered event stream emitted
so far, the `ResultHandler` counters (updated synchronously on dispatch),
and the `CancellationToken` fields.  When fail-fast is enabled a
`CancellationHandler` is subscribed, so dispatching an event whose payload
has an error-category diagnostic cancels the token (first reason wins). -/
structure RunState where
  events : List Event := []
  h : HState := {}
  cancelled : Bool := false
  reason : Option CancelReason := none
deriving DecidableEq, Repr

/-- `EventEmitter.dispatch`: appends the event to the stream, runs
`ResultHandler.handleEvent`, and, when fail-fast is enabled, runs
`CancellationHandler.handleEvent` (which calls `cancel("failFast")` on any
error-category diagnostic; `cancel` is a no-op when already cancelled). -/
def dispatch (failFast : Bool) (e : Event) (s : RunState) : RunState :=
  { events := s.events ++ [e]
    h := handlerStep s.h e
    cancelled := s.cancelled || (failFast && e.hasErrorDiagnostic)
    reason :=
      if s.cancelled then s.reason
      else if failFast && e.hasErrorDiagnostic then some .failFast
      else s.reason }

mutual

/-- `TestTreeWorker.visit`: iterate the sibling list; break when
cancellation is requested; on a validation failure dispatch `task:error`
and break (abandoning the remaining siblings at this level). -/
def visit (w : WorkerCtx) (runMode : RunMode) (s : RunState) : List Member → RunState
  | [] => s
  | m :: rest =>
      if s.cancelled then s
      else if m.validate ≠ 0 then dispatch w.failFast .taskError s
      else visit w runMode (visitMember w runMode s m) rest

/-- The per-member dispatch of `TestTreeWorker.visit`, containing the
bodies of `#visitDescribe`, `#visitTest` and `#visitAssertion`. -/
def visitMember (w : WorkerCtx) (runMode : RunMode) (s : RunState) : Member → RunState
  | m@(.node brand _ _ start diagCount isNot matcher matchRes evalReports members) =>
    match brand with
    | .describe =>
        -- TestTreeWorker.#visitDescribe
        let s := dispatch w.failFast (.describeStart start) s
        let mode := resolveRunMode w runMode m
        let s :=
          if !(mode.skip || (w.hasOnly && !mode.only) || mode.todo) && diagCount > 0 then
            dispatch w.failFast .taskError s
          else
            visit w mode s members
        dispatch w.failFast (.describeEnd start) s
    | .test =>
        -- TestTreeWorker.#visitTest
        let s := dispatch w.failFast (.testStart start) s
        let mode := resolveRunMode w runMode m
        if mode.todo then
          dispatch w.failFast (.testTodo start) s
        else if !(mode.skip || (w.hasOnly && !mode.only)) && diagCount > 0 then
          dispatch w.failFast (.testError start) s
        else
          let s := visit w mode s members
          if mode.skip || (w.hasOnly && !mode.only) then
            dispatch w.failFast (.testSkip start) s
          else if s.h.testExpectCount.failed > 0 then
            dispatch w.failFast (.testFail start) s
          else
            dispatch w.failFast (.testPass start) s
    | .expect =>
        -- TestTreeWorker.#visitAssertion
        let s := visit w runMode s members
        let s := dispatch w.failFast (.expectStart start) s
        let mode := resolveRunMode w runMode m
        if mode.skip || (w.hasOnly && !mode.only) then
          dispatch w.failFast (.expectSkip start) s
        else if diagCount > 0 && matcher != "toRaiseError" then
          dispatch w.failFast (.expectError start) s
        else
          let s := if matcher == "toMatch" then dispatch w.failFast .deprecationInfo s else s
          match matchRes with
          | none =>
              if evalReports then dispatch w.failFast (.expectError start) s else s
          | some isMatch =>
              if (if isNot then !isMatch else isMatch) then
                if mode.fail then dispatch w.failFast (.expectError start) s
                else dispatch w.failFast (.expectPass start) s
              else if mode.fail then dispatch w.failFast (.expectPass start) s
              else dispatch w.failFast (.expectFail start) s

end

/-- One test file together with the oracle outcomes of the external
services `TaskRunner.#run` consults before walking the tree: whether the
language service / program / source file are available, whether the file
has syntactic errors, and whether the collected `TestTree` is left with
unattached diagnostics (`testTree.diagnostics.size > 0`).  `position` is
the task's optional single-entity position. -/
structure TestFile where
  path : String
  position : Option Nat := none
  languageServiceOk : Bool := true
  programOk : Bool := true
  syntacticErrors : Bool := false
  unhandledDiagnostics : Bool := false
  members : List Member := []

/-- The run-level configuration fields this core reads
(`resolvedConfig.only`, `.skip`, `.failFast`). -/
structure RunnerConfig where
  only : Option String := none
  skip : Option String := none
  failFast : Bool := false

/-- The body of `TaskRunner.#run` between `task:start` and `task:end`:
bail out silently when the language service, program or source file is
missing; dispatch `task:error` for syntactic errors or leftover tree
diagnostics; otherwise build a `TestTreeWorker` (with `#hasOnly` computed
from the tree, the `only` filter and the position) and walk the tree with
inherited mode 0. -/
def taskRunInner (cfg : RunnerConfig) (f : TestFile) (s : RunState) : RunState :=
  if !f.languageServiceOk then s
  else if f.syntacticErrors then dispatch cfg.failFast .taskError s
  else if !f.programOk then s
  else if f.unhandledDiagnostics then dispatch cfg.failFast .taskError s
  else
    let w : WorkerCtx :=
      { only := cfg.only, skip := cfg.skip, position := f.position,
        hasOnly := hasOnlyForest f.members || cfg.only.isSome || f.position.isSome,
        failFast := cfg.failFast }
    visit w {} s f.members

/-- `TaskRunner.run`: return without any event when cancellation is
already requested; otherwise wrap the task body in
`task:start` / `task:end`. -/
def taskRun (cfg : RunnerConfig) (f : TestFile) (s : RunState) : RunState :=
  if s.cancelled then s
  else
    let s := dispatch cfg.failFast (.taskStart f.path) s
    let s := taskRunInner cfg f s
    dispatch cfg.failFast (.taskEnd f.path) s

/-- One configured target: its version tag and whether
`storeService.load` yields a compiler for it. -/
structure Target where
  versionTag : String
  compilerLoads : Bool := true

/-- The per-target section of `Runner.#run`: `target:start`, then, only
when the compiler loads, run every task in order, then `target:end`
(dispatched unconditionally — the target loop never checks
cancellation itself). -/
def targetRun (cfg : RunnerConfig) (files : List TestFile) (s : RunState) (t : Target) : RunState :=
  let s := dispatch cfg.failFast (.targetStart t.versionTag) s
  let s := if t.compilerLoads then files.foldl (fun s f => taskRun cfg f s) s else s
  dispatch cfg.failFast (.targetEnd t.versionTag) s

/-- `CancellationToken.reset`: clears the flag and reason (a no-op when
not cancelled). -/
def tokenReset (s : RunState) : RunState :=
  if s.cancelled then { s with cancelled := false, reason := none } else s

/-- `Runner.#run`: `run:start`, every target in order, `run:end`, and a
token reset when the cancellation reason is fail-fast. -/
def runnerRun (cfg : RunnerConfig) (targets : List Target) (files : List TestFile)
    (s : RunState) : RunState :=
  let s := dispatch cfg.failFast .runStart s
  let s := targets.foldl (targetRun cfg files) s
  let s := dispatch cfg.failFast .runEnd s
  if s.reason == some .failFast then tokenReset s else s

/-! ### Watch mode (`WatchService.watch` and `Debounce`) -/

/-- A `Task` as the watch service stores it: file path plus optional
position. -/
structure WTask where
  filePath : String
  position : Option Nat := none
deriving DecidableEq, Repr

/-- Insertion-ordered map update with JavaScript `Map.prototype.set`
semantics: an existing key keeps its position and gets the new value, a
new key is appended. -/
def mapSet (k : String) (v : WTask) : List (String × WTask) → List (String × WTask)
  | [] => [(k, v)]
  | (k2, v2) :: rest =>
      if k2 = k then (k2, v) :: rest else (k2, v2) :: mapSet k v rest

/-- JavaScript `Map.prototype.get` on the insertion-ordered map model. -/
def mapGet (k : String) : List (String × WTask) → Option WTask
  | [] => none
  | (k2, v2) :: rest => if k2 = k then some v2 else mapGet k rest

/-- JavaScript `Map.prototype.delete` on the insertion-ordered map model. -/
def mapDelete (k : String) : List (String × WTask) → List (String × WTask)
  | [] => []
  | (k2, v2) :: rest =>
      if k2 = k then rest else (k2, v2) :: mapDelete k rest

/-- The state of one `WatchService.watch` session: the
`#watchedTestFiles` and `#changedTestFiles` maps, whether the debounce
timer has a pending timeout, and the batches flushed (yielded) so far.
The `Debounce` object holds at most one pending timeout because
`refreshTimeout` always clears the previous one before scheduling. -/
structure WatchState where
  watchedTestFiles : List (String × WTask)
  changedTestFiles : List (String × WTask) := []
  timerPending : Bool := false
  batches : List (List WTask) := []
deriving DecidableEq, Repr

/-- The `onChangedFile` callback: refresh the debounce timer, then mark
the file pending — reusing the watched task when the path is already
watched, otherwise registering a new task in both maps when the path is
an eligible test file. -/
def onChangedFile (isTestFile : String → Bool) (filePath : String) (ws : WatchState) : WatchState :=
  let ws := { ws with timerPending := true }
  match mapGet filePath ws.watchedTestFiles with
  | some task => { ws with changedTestFiles := mapSet filePath task ws.changedTestFiles }
  | none =>
      if isTestFile filePath then
        let task : WTask := { filePath }
        { ws with
            changedTestFiles := mapSet filePath task ws.changedTestFiles,
            watchedTestFiles := mapSet filePath task ws.watchedTestFiles }
      else ws

/-- The `onRemovedFile` callback: drop the path from both maps; when the
watched set becomes empty, clear the pending timer (the non-fatal
`watch:error` diagnostic it also surfaces is rendering, not modelled). -/
def onRemovedFile (filePath : String) (ws : WatchState) : WatchState :=
  let ws := { ws with
      changedTestFiles := mapDelete filePath ws.changedTestFiles,
      watchedTestFiles := mapDelete filePath ws.watchedTestFiles }
  if ws.watchedTestFiles.isEmpty then { ws with timerPending := false } else ws

/-- The debounce timeout firing: `onResolve` collects the pending values
and clears the pending map, and the `watch` loop yields the batch only
when it is non-empty. -/
def debounceFire (ws : WatchState) : WatchState :=
  if ws.timerPending then
    let batch := ws.changedTestFiles.map (fun kv => kv.2)
    { ws with
        changedTestFiles := [],
        timerPending := false,
        batches := if batch.length > 0 then ws.batches ++ [batch] else ws.batches }
  else ws

/-- Iterated change notifications for one file (a burst arriving within
one debounce window). -/
def iterChanged (isTestFile : String → Bool) (filePath : String) : Nat → WatchState → WatchState
  | 0, ws => ws
  | n + 1, ws => iterChanged isTestFile filePath n (onChangedFile isTestFile filePath ws)

/-! ### Event-stream classifiers and the replayed handler state -/

/-- Terminal test events counted into the `failed` bucket
(`test:fail` and `test:error` both increment `testCount.failed`). -/
def Event.isTestFailed : Event → Bool
  | .testFail _ => true
  | .testError _ => true
  | _ => false

def Event.isTestPassed : Event → Bool
  | .testPass _ => true
  | _ => false

def Event.isTestSkipped : Event → Bool
  | .testSkip _ => true
  | _ => false

def Event.isTestTodoEv : Event → Bool
  | .testTodo _ => true
  | _ => false

/-- Terminal assertion events counted into the `failed` bucket
(`expect:fail` and `expect:error` both increment `expectCount.failed`). -/
def Event.isExpectFailed : Event → Bool
  | .expectFail _ => true
  | .expectError _ => true
  | _ => false

def Event.isExpectPassed : Event → Bool
  | .expectPass _ => true
  | _ => false

def Event.isExpectSkipped : Event → Bool
  | .expectSkip _ => true
  | _ => false

def Event.isTaskEndEv : Event → Bool
  | .taskEnd _ => true
  | _ => false

def Event.isTargetEndEv : Event → Bool
  | .targetEnd _ => true
  | _ => false

def Event.isRunStartEv : Event → Bool
  | .runStart => true
  | _ => false

def Event.isTaskStartEv : Event → Bool
  | .taskStart _ => true
  | _ => false

def Event.isTestStartEv : Event → Bool
  | .testStart _ => true
  | _ => false

/-- The `ResultHandler` counters obtained by replaying an event stream
from a fresh handler. -/
def replayH (es : List Event) : HState :=
  es.foldl handlerStep {}

/-- Terminal test events (`test:error/fail/pass/skip/todo`). -/
def Event.isTestTerminal : Event → Bool
  | .testError _ => true
  | .testFail _ => true
  | .testPass _ => true
  | .testSkip _ => true
  | .testTodo _ => true
  | _ => false

/-- The kind of a terminal test (Case) event. -/
inductive TermKind where
  | error
  | fail
  | pass
  | skip
  | todo
deriving DecidableEq, Repr

/-- The member identity and kind of a terminal test event, if any. -/
def testTerminalOf : Event → Option (Nat × TermKind)
  | .testError i => some (i, .error)
  | .testFail i => some (i, .fail)
  | .testPass i => some (i, .pass)
  | .testSkip i => some (i, .skip)
  | .testTodo i => some (i, .todo)
  | _ => none

/-- The ordered list of terminal test events of a stream, with the member
identity (source start) and kind of each. -/
def testTerminals (es : List Event) : List (Nat × TermKind) :=
  es.filterMap testTerminalOf

mutual

/-- Whether a member is an assertion all of whose descendants are
assertions. -/
def isExpectTree : Member → Bool
  | .node b _ _ _ _ _ _ _ _ ms => b == .expect && isExpectForest ms

/-- Whether every member of the list is an assertion with only assertion
descendants. -/
def isExpectForest : List Member → Bool
  | [] => true
  | m :: rest => isExpectTree m && isExpectForest rest

end

/-- A plain Case: a test node carrying no attached diagnostics, no Skip
and no Todo flag, whose children are assertions throughout. -/
def plainTest (m : Member) : Bool :=
  m.brand == .test && m.diagCount == 0 && m.flags.skip == false
    && m.flags.todo == false && isExpectForest m.members

/-! ### Concrete fixtures used by witnesses and counterexamples -/

/-- A leaf assertion whose evaluator returns `isMatch`. -/
def mkAssert (st : Nat) (isMatch : Bool) : Member :=
  .node .expect {} "" st 0 false "toBe" (some isMatch) false []

/-- A test (Case) node with the given flags, source start and children. -/
def mkTest (fl : RunMode) (st : Nat) (children : List Member) : Member :=
  .node .test fl "" st 0 false "" none false children

/-- The §8 count-consistency scenario: 3 cases (2 passing, 1 failing)
containing 5 assertions (4 passing, 1 failing). -/
def fileCount3 : TestFile :=
  { path := "a.ts",
    members :=
      [ mkTest {} 10 [mkAssert 11 true, mkAssert 12 true],
        mkTest {} 20 [mkAssert 21 true, mkAssert 22 false],
        mkTest {} 30 [mkAssert 31 true] ] }

/-- A file whose first top-level group carries an attached diagnostic and
is followed by a sibling test — the C4 counterexample input. -/
def fileDescribeDiag : TestFile :=
  { path := "b.ts",
    members :=
      [ .node .describe {} "d" 5 1 false "" none false [],
        mkTest {} 10 [mkAssert 11 true] ] }

/-- First file of the fail-fast scenario: its first (and only) assertion
fails. -/
def fileFailFirst : TestFile :=
  { path := "f1.ts", members := [mkTest {} 10 [mkAssert 11 false]] }

/-- Second file of the fail-fast scenario. -/
def fileSecond : TestFile :=
  { path := "f2.ts", members := [mkTest {} 20 [mkAssert 21 true]] }

/-- A file whose only top-level group directly contains an assertion —
illegal nesting, the C8 scenario. -/
def fileInvalidNesting : TestFile :=
  { path := "e.ts",
    members := [.node .describe {} "d" 5 0 false "" none false [mkAssert 6 true]] }

/-! ### General lemmas about dispatch, the walker and the handler fold -/

theorem dispatch_events (ff : Bool) (e : Event) (s : RunState) :
    (dispatch ff e s).events = s.events ++ [e] := rfl

theorem visit_nil (w : WorkerCtx) (rm : RunMode) (s : RunState) :
    visit w rm s [] = s := rfl

theorem visit_cons (w : WorkerCtx) (rm : RunMode) (s : RunState) (m : Member)
    (rest : List Member) :
    visit w rm s (m :: rest) =
      if s.cancelled then s
      else if m.validate ≠ 0 then dispatch w.failFast .taskError s
      else visit w rm (visitMember w rm s m) rest := rfl


theorem foldl_proj (f : HState → Nat) (p r : Event → Bool)
    (hstep : ∀ h e, r e = false → f (handlerStep h e) = f h + (if p e then 1 else 0)) :
    ∀ (es : List Event) (h : HState), (∀ x ∈ es, r x = false) →
      f (es.foldl handlerStep h) = f h + es.countP p := by
  intro es
  induction es with
  | nil => simp
  | cons e rest ih =>
    intro h hall
    simp only [List.foldl_cons]
    rw [ih (handlerStep h e) (fun x hx => hall x (List.mem_cons_of_mem e hx)),
      hstep h e (hall e (List.mem_cons_self e rest)), List.countP_cons]
    cases hpe : p e <;> simp [hpe] <;> omega

theorem step_runTestFailed (h : HState) (e : Event) (he : e.isRunStartEv = false) :
    (handlerStep h e).runTestCount.failed
      = h.runTestCount.failed + (if e.isTestFailed then 1 else 0) := by
  cases e <;> simp_all [handlerStep, Event.isRunStartEv, Event.isTestFailed, Counts.incFailed,
    Counts.incPassed, Counts.incSkipped, Counts.incTodo]
  all_goals (split <;> simp [Counts.incFailed, Counts.incPassed])

theorem step_runTestPassed (h : HState) (e : Event) (he : e.isRunStartEv = false) :
    (handlerStep h e).runTestCount.passed
      = h.runTestCount.passed + (if e.isTestPassed then 1 else 0) := by
  cases e <;> simp_all [handlerStep, Event.isRunStartEv, Event.isTestPassed, Counts.incFailed,
    Counts.incPassed, Counts.incSkipped, Counts.incTodo]
  all_goals (split <;> simp [Counts.incFailed, Counts.incPassed])

theorem step_runTestSkipped (h : HState) (e : Event) (he : e.isRunStartEv = false) :
    (handlerStep h e).runTestCount.skipped
      = h.runTestCount.skipped + (if e.isTestSkipped then 1 else 0) := by
  cases e <;> simp_all [handlerStep, Event.isRunStartEv, Event.isTestSkipped, Counts.incFailed,
    Counts.incPassed, Counts.incSkipped, Counts.incTodo]
  all_goals (split <;> simp [Counts.incFailed, Counts.incPassed])

theorem step_runTestTodo (h : HState) (e : Event) (he : e.isRunStartEv = false) :
    (handlerStep h e).runTestCount.todo
      = h.runTestCount.todo + (if e.isTestTodoEv then 1 else 0) := by
  cases e <;> simp_all [handlerStep, Event.isRunStartEv, Event.isTestTodoEv, Counts.incFailed,
    Counts.incPassed, Counts.incSkipped, Counts.incTodo]
  all_goals (split <;> simp [Counts.incFailed, Counts.incPassed])

theorem step_runExpectFailed (h : HState) (e : Event) (he : e.isRunStartEv = false) :
    (handlerStep h e).runExpectCount.failed
      = h.runExpectCount.failed + (if e.isExpectFailed then 1 else 0) := by
  cases e <;> simp_all [handlerStep, Event.isRunStartEv, Event.isExpectFailed, Counts.incFailed,
    Counts.incPassed, Counts.incSkipped, Counts.incTodo]
  all_goals (split <;> simp [Counts.incFailed, Counts.incPassed])

theorem step_runExpectPassed (h : HState) (e : Event) (he : e.isRunStartEv = false) :
    (handlerStep h e).runExpectCount.passed
      = h.runExpectCount.passed + (if e.isExpectPassed then 1 else 0) := by
  cases e <;> simp_all [handlerStep, Event.isRunStartEv, Event.isExpectPassed, Counts.incFailed,
    Counts.incPassed, Counts.incSkipped, Counts.incTodo]
  all_goals (split <;> simp [Counts.incFailed, Counts.incPassed])

theorem step_runExpectSkipped (h : HState) (e : Event) (he : e.isRunStartEv = false) :
    (handlerStep h e).runExpectCount.skipped
      = h.runExpectCount.skipped + (if e.isExpectSkipped then 1 else 0) := by
  cases e <;> simp_all [handlerStep, Event.isRunStartEv, Event.isExpectSkipped, Counts.incFailed,
    Counts.incPassed, Counts.incSkipped, Counts.incTodo]
  all_goals (split <;> simp [Counts.incFailed, Counts.incPassed])

theorem step_fileSum (h : HState) (e : Event) (he : e.isRunStartEv = false) :
    (handlerStep h e).fileCount.failed + (handlerStep h e).fileCount.passed
      = (h.fileCount.failed + h.fileCount.passed) + (if e.isTaskEndEv then 1 else 0) := by
  cases e <;> simp_all [handlerStep, Event.isRunStartEv, Event.isTaskEndEv, Counts.incFailed,
    Counts.incPassed, Counts.incSkipped, Counts.incTodo]
  all_goals (split <;> simp [Counts.incFailed, Counts.incPassed] <;> omega)

theorem step_targetSum (h : HState) (e : Event) (he : e.isRunStartEv = false) :
    (handlerStep h e).targetCount.failed + (handlerStep h e).targetCount.passed
      = (h.targetCount.failed + h.targetCount.passed) + (if e.isTargetEndEv then 1 else 0) := by
  cases e <;> simp_all [handlerStep, Event.isRunStartEv, Event.isTargetEndEv, Counts.incFailed,
    Counts.incPassed, Counts.incSkipped, Counts.incTodo]
  all_goals (split <;> simp [Counts.incFailed, Counts.incPassed] <;> omega)

theorem step_taskTestFailed (h : HState) (e : Event) (he : e.isTaskStartEv = false) :
    (handlerStep h e).taskTestCount.failed
      = h.taskTestCount.failed + (if e.isTestFailed then 1 else 0) := by
  cases e <;> simp_all [handlerStep, Event.isTaskStartEv, Event.isTestFailed, Counts.incFailed,
    Counts.incPassed, Counts.incSkipped, Counts.incTodo]
  all_goals (split <;> simp [Counts.incFailed, Counts.incPassed])

theorem step_taskTestPassed (h : HState) (e : Event) (he : e.isTaskStartEv = false) :
    (handlerStep h e).taskTestCount.passed
      = h.taskTestCount.passed + (if e.isTestPassed then 1 else 0) := by
  cases e <;> simp_all [handlerStep, Event.isTaskStartEv, Event.isTestPassed, Counts.incFailed,
    Counts.incPassed, Counts.incSkipped, Counts.incTodo]
  all_goals (split <;> simp [Counts.incFailed, Counts.incPassed])

theorem step_taskTestSkipped (h : HState) (e : Event) (he : e.isTaskStartEv = false) :
    (handlerStep h e).taskTestCount.skipped
      = h.taskTestCount.skipped + (if e.isTestSkipped then 1 else 0) := by
  cases e <;> simp_all [handlerStep, Event.isTaskStartEv, Event.isTestSkipped, Counts.incFailed,
    Counts.incPassed, Counts.incSkipped, Counts.incTodo]
  all_goals (split <;> simp [Counts.incFailed, Counts.incPassed])

theorem step_taskTestTodo (h : HState) (e : Event) (he : e.isTaskStartEv = false) :
    (handlerStep h e).taskTestCount.todo
      = h.taskTestCount.todo + (if e.isTestTodoEv then 1 else 0) := by
  cases e <;> simp_all [handlerStep, Event.isTaskStartEv, Event.isTestTodoEv, Counts.incFailed,
    Counts.incPassed, Counts.incSkipped, Counts.incTodo]
  all_goals (split <;> simp [Counts.incFailed, Counts.incPassed])

theorem step_taskExpectFailed (h : HState) (e : Event) (he : e.isTaskStartEv = false) :
    (handlerStep h e).taskExpectCount.failed
      = h.taskExpectCount.failed + (if e.isExpectFailed then 1 else 0) := by
  cases e <;> simp_all [handlerStep, Event.isTaskStartEv, Event.isExpectFailed, Counts.incFailed,
    Counts.incPassed, Counts.incSkipped, Counts.incTodo]
  all_goals (split <;> simp [Counts.incFailed, Counts.incPassed])

theorem step_taskExpectPassed (h : HState) (e : Event) (he : e.isTaskStartEv = false) :
    (handlerStep h e).taskExpectCount.passed
      = h.taskExpectCount.passed + (if e.isExpectPassed then 1 else 0) := by
  cases e <;> simp_all [handlerStep, Event.isTaskStartEv, Event.isExpectPassed, Counts.incFailed,
    Counts.incPassed, Counts.incSkipped, Counts.incTodo]
  all_goals (split <;> simp [Counts.incFailed, Counts.incPassed])

theorem step_taskExpectSkipped (h : HState) (e : Event) (he : e.isTaskStartEv = false) :
    (handlerStep h e).taskExpectCount.skipped
      = h.taskExpectCount.skipped + (if e.isExpectSkipped then 1 else 0) := by
  cases e <;> simp_all [handlerStep, Event.isTaskStartEv, Event.isExpectSkipped, Counts.incFailed,
    Counts.incPassed, Counts.incSkipped, Counts.incTodo]
  all_goals (split <;> simp [Counts.incFailed, Counts.incPassed])

theorem foldl_testExpect (es : List Event) : ∀ h : HState, h.testActive = true →
    (∀ x ∈ es, x.isTestStartEv = false ∧ x.isTestTerminal = false) →
    ((es.foldl handlerStep h).testActive = true)
  ∧ ((es.foldl handlerStep h).testExpectCount.failed
      = h.testExpectCount.failed + es.countP Event.isExpectFailed)
  ∧ ((es.foldl handlerStep h).testExpectCount.passed
      = h.testExpectCount.passed + es.countP Event.isExpectPassed)
  ∧ ((es.foldl handlerStep h).testExpectCount.skipped
      = h.testExpectCount.skipped + es.countP Event.isExpectSkipped) := by
  induction es with
  | nil => simp
  | cons e rest ih =>
    intro h hact hall
    obtain ⟨hstart, hterm⟩ := hall e (List.mem_cons_self e rest)
    have hrest := fun x hx => hall x (List.mem_cons_of_mem e hx)
    have hact2 : (handlerStep h e).testActive = true := by
      clear ih hrest hall
      cases e <;> simp_all [handlerStep, Event.isTestStartEv, Event.isTestTerminal]
      all_goals (split <;> simp_all)
    have hf : (handlerStep h e).testExpectCount.failed
        = h.testExpectCount.failed + (if e.isExpectFailed then 1 else 0) := by
      clear ih hrest hall hact2
      cases e <;> simp_all [handlerStep, Event.isTestStartEv, Event.isTestTerminal,
        Event.isExpectFailed, Counts.incFailed, Counts.incPassed, Counts.incSkipped]
      all_goals (split <;> simp_all)
    have hp : (handlerStep h e).testExpectCount.passed
        = h.testExpectCount.passed + (if e.isExpectPassed then 1 else 0) := by
      clear ih hrest hall hact2 hf
      cases e <;> simp_all [handlerStep, Event.isTestStartEv, Event.isTestTerminal,
        Event.isExpectPassed, Counts.incFailed, Counts.incPassed, Counts.incSkipped]
      all_goals (split <;> simp_all)
    have hs : (handlerStep h e).testExpectCount.skipped
        = h.testExpectCount.skipped + (if e.isExpectSkipped then 1 else 0) := by
      clear ih hrest hall hact2 hf hp
      cases e <;> simp_all [handlerStep, Event.isTestStartEv, Event.isTestTerminal,
        Event.isExpectSkipped, Counts.incFailed, Counts.incPassed, Counts.incSkipped]
      all_goals (split <;> simp_all)
    obtain ⟨ih1, ih2, ih3, ih4⟩ := ih (handlerStep h e) hact2 hrest
    refine ⟨ih1, ?_, ?_, ?_⟩
    · rw [List.foldl_cons, ih2, hf, List.countP_cons]
      cases he1 : e.isExpectFailed <;> simp [he1] <;> omega
    · rw [List.foldl_cons, ih3, hp, List.countP_cons]
      cases he1 : e.isExpectPassed <;> simp [he1] <;> omega
    · rw [List.foldl_cons, ih4, hs, List.countP_cons]
      cases he1 : e.isExpectSkipped <;> simp [he1] <;> omega

/-! ### Claim theorems -/

/-- C6: run-mode resolution returns the inherited mode OR-ed with the
node's local flags and filter matches — no bit set in the inherited mode
is ever cleared, with the single exception of the Skip bit when the
position filter equals the node's source start, in which case the result
has Only set and Skip cleared regardless of inherited or local Skip. -/
theorem claim_run_mode_resolution (w : WorkerCtx) (mode : RunMode) (m : Member) :
    (resolveRunMode w mode m).fail = (mode.fail || m.flags.fail)
  ∧ (resolveRunMode w mode m).only =
      (mode.only || m.flags.only || nameMatches w.only m.name || (w.position == some m.start))
  ∧ (resolveRunMode w mode m).todo = (mode.todo || m.flags.todo)
  ∧ (resolveRunMode w mode m).skip =
      (if w.position == some m.start then false
       else (mode.skip || m.flags.skip || nameMatches w.skip m.name)) := by
  simp only [resolveRunMode]
  cases hf : m.flags.fail <;>
    cases ho : m.flags.only <;>
      cases ho2 : nameMatches w.only m.name <;>
        cases hs : m.flags.skip <;>
          cases hs2 : nameMatches w.skip m.name <;>
            cases ht : m.flags.todo <;>
              cases hp : (w.position == some m.start) <;>
                simp_all [Bool.or_comm, Bool.or_assoc, Bool.or_left_comm]

/-- C7: a Case whose resolved mode has the Todo bit set publishes
`test:start` followed by exactly one `test:todo` and stops — its children
are never visited, so no `expect:*` event is published for any of its
descendants. -/
theorem claim_todo_isolation (w : WorkerCtx) (rm : RunMode) (s : RunState) (t : Member)
    (hbrand : t.brand = .test) (htodo : (resolveRunMode w rm t).todo = true) :
    (visitMember w rm s t).events =
      s.events ++ [.testStart t.start, .testTodo t.start] := by
  cases t with
  | node b f n st d iN mt mr er ms =>
    simp only [Member.brand] at hbrand
    subst hbrand
    simp only [visitMember, htodo, if_true, Member.start]
    simp [dispatch]

/-- Witness for C7: a Todo-flagged Case with two child assertions yields
only `test:start` and `test:todo`. -/
theorem claim_todo_isolation_witness :
    (visitMember {} {} {}
        (.node .test { todo := true } "t" 2 0 false "" none false
          [mkAssert 3 true, mkAssert 4 false])).events
      = [.testStart 2, .testTodo 2] := by
  simpa using claim_todo_isolation {} {} {}
    (.node .test { todo := true } "t" 2 0 false "" none false
      [mkAssert 3 true, mkAssert 4 false]) rfl (by decide)

/-- C1: a visited assertion that is actually evaluated (not skipped, not
blocked by pre-attached diagnostics, evaluator returns a result) and whose
resolved mode has the Fail bit publishes, after its children's events and
its `expect:start`, exactly one `expect:error` when the effective truth
`isNegated ? !isMatch : isMatch` is true and exactly one `expect:pass`
when it is false. -/
theorem claim_fail_inversion (w : WorkerCtx) (rm : RunMode) (s : RunState) (a : Member) (b : Bool)
    (hbrand : a.brand = .expect)
    (hskip : ((resolveRunMode w rm a).skip || (w.hasOnly && !(resolveRunMode w rm a).only)) = false)
    (hdiag : (decide (a.diagCount > 0) && (a.matcher != "toRaiseError")) = false)
    (hres : a.matchRes = some b)
    (hfail : (resolveRunMode w rm a).fail = true) :
    (visitMember w rm s a).events =
      (visit w rm s a.members).events
        ++ [.expectStart a.start]
        ++ (if a.matcher == "toMatch" then [.deprecationInfo] else [])
        ++ [if (if a.isNot then !b else b) then .expectError a.start else .expectPass a.start] := by
  cases a with
  | node br f n st d iN mt mr er ms =>
    simp only [Member.brand] at hbrand
    subst hbrand
    simp only [Member.diagCount, Member.matcher, Member.matchRes, Member.isNot, Member.start,
      Member.members] at *
    subst hres
    simp only [visitMember, hskip, hdiag, hfail, Bool.false_eq_true, if_false, if_true]
    split <;> split <;> split <;> simp [dispatch]

/-- Witness for C1: a Fail-flagged assertion whose evaluator returns a
true match yields exactly one `expect:error`. -/
theorem claim_fail_inversion_witness :
    (visitMember {} {} {}
        (.node .expect { fail := true } "" 1 0 false "toBe" (some true) false [])).events
      = [.expectStart 1, .expectError 1] := by
  simpa [visit_nil] using claim_fail_inversion {} {} {}
    (.node .expect { fail := true } "" 1 0 false "toBe" (some true) false []) true
    rfl (by decide) (by decide) rfl (by decide)

/-- C3: counters are incremented exactly on terminal events — after any
prefix of a run's stream the run-level counts equal the number of terminal
test/expect events (and `task:end` / `target:end` events) observed so far,
the current task's counts equal the terminal events observed since its
`task:start`, the current case's expect counts equal the assertion
terminals observed since its `test:start`; and the 3-case (2 pass, 1 fail)
/ 5-assertion (4 pass, 1 fail) run ends with
testCounts = (passed 2, failed 1, total 3) and
expectCounts = (passed 4, failed 1, total 5). -/
theorem claim_count_consistency :
    (∀ es : List Event, (∀ x ∈ es, x.isRunStartEv = false) →
      (replayH es).runTestCount.failed = es.countP Event.isTestFailed
      ∧ (replayH es).runTestCount.passed = es.countP Event.isTestPassed
      ∧ (replayH es).runTestCount.skipped = es.countP Event.isTestSkipped
      ∧ (replayH es).runTestCount.todo = es.countP Event.isTestTodoEv
      ∧ (replayH es).runExpectCount.failed = es.countP Event.isExpectFailed
      ∧ (replayH es).runExpectCount.passed = es.countP Event.isExpectPassed
      ∧ (replayH es).runExpectCount.skipped = es.countP Event.isExpectSkipped
      ∧ (replayH es).fileCount.failed + (replayH es).fileCount.passed
          = es.countP Event.isTaskEndEv
      ∧ (replayH es).targetCount.failed + (replayH es).targetCount.passed
          = es.countP Event.isTargetEndEv)
  ∧ (∀ (es : List Event) (h : HState) (p : String), (∀ x ∈ es, x.isTaskStartEv = false) →
      (es.foldl handlerStep (handlerStep h (.taskStart p))).taskTestCount.failed
          = es.countP Event.isTestFailed
      ∧ (es.foldl handlerStep (handlerStep h (.taskStart p))).taskTestCount.passed
          = es.countP Event.isTestPassed
      ∧ (es.foldl handlerStep (handlerStep h (.taskStart p))).taskTestCount.skipped
          = es.countP Event.isTestSkipped
      ∧ (es.foldl handlerStep (handlerStep h (.taskStart p))).taskTestCount.todo
          = es.countP Event.isTestTodoEv
      ∧ (es.foldl handlerStep (handlerStep h (.taskStart p))).taskExpectCount.failed
          = es.countP Event.isExpectFailed
      ∧ (es.foldl handlerStep (handlerStep h (.taskStart p))).taskExpectCount.passed
          = es.countP Event.isExpectPassed
      ∧ (es.foldl handlerStep (handlerStep h (.taskStart p))).taskExpectCount.skipped
          = es.countP Event.isExpectSkipped)
  ∧ (∀ (es : List Event) (h : HState) (i : Nat),
      (∀ x ∈ es, x.isTestStartEv = false ∧ x.isTestTerminal = false) →
      (es.foldl handlerStep (handlerStep h (.testStart i))).testExpectCount.failed
          = es.countP Event.isExpectFailed
      ∧ (es.foldl handlerStep (handlerStep h (.testStart i))).testExpectCount.passed
          = es.countP Event.isExpectPassed
      ∧ (es.foldl handlerStep (handlerStep h (.testStart i))).testExpectCount.skipped
          = es.countP Event.isExpectSkipped)
  ∧ ((runnerRun {} [{ versionTag := "5.4" }] [fileCount3] {}).h.runTestCount
        = { failed := 1, passed := 2, skipped := 0, todo := 0 }
    ∧ (runnerRun {} [{ versionTag := "5.4" }] [fileCount3] {}).h.runTestCount.total = 3
    ∧ (runnerRun {} [{ versionTag := "5.4" }] [fileCount3] {}).h.runExpectCount
        = { failed := 1, passed := 4, skipped := 0, todo := 0 }
    ∧ (runnerRun {} [{ versionTag := "5.4" }] [fileCount3] {}).h.runExpectCount.total = 5
    ∧ (runnerRun {} [{ versionTag := "5.4" }] [fileCount3] {}).h.finishedTasks
        = [⟨{ failed := 1, passed := 2, skipped := 0, todo := 0 },
            { failed := 1, passed := 4, skipped := 0, todo := 0 }, true⟩]) := by
  refine ⟨?_, ?_, ?_, rfl, rfl, rfl, rfl, rfl⟩
  · intro es hall
    refine ⟨?_, ?_, ?_, ?_, ?_, ?_, ?_, ?_, ?_⟩
    · simpa [replayH] using foldl_proj (fun st => st.runTestCount.failed)
        Event.isTestFailed Event.isRunStartEv step_runTestFailed es {} hall
    · simpa [replayH] using foldl_proj (fun st => st.runTestCount.passed)
        Event.isTestPassed Event.isRunStartEv step_runTestPassed es {} hall
    · simpa [replayH] using foldl_proj (fun st => st.runTestCount.skipped)
        Event.isTestSkipped Event.isRunStartEv step_runTestSkipped es {} hall
    · simpa [replayH] using foldl_proj (fun st => st.runTestCount.todo)
        Event.isTestTodoEv Event.isRunStartEv step_runTestTodo es {} hall
    · simpa [replayH] using foldl_proj (fun st => st.runExpectCount.failed)
        Event.isExpectFailed Event.isRunStartEv step_runExpectFailed es {} hall
    · simpa [replayH] using foldl_proj (fun st => st.runExpectCount.passed)
        Event.isExpectPassed Event.isRunStartEv step_runExpectPassed es {} hall
    · simpa [replayH] using foldl_proj (fun st => st.runExpectCount.skipped)
        Event.isExpectSkipped Event.isRunStartEv step_runExpectSkipped es {} hall
    · simpa [replayH] using foldl_proj (fun st => st.fileCount.failed + st.fileCount.passed)
        Event.isTaskEndEv Event.isRunStartEv step_fileSum es {} hall
    · simpa [replayH] using foldl_proj (fun st => st.targetCount.failed + st.targetCount.passed)
        Event.isTargetEndEv Event.isRunStartEv step_targetSum es {} hall
  · intro es h p hall
    refine ⟨?_, ?_, ?_, ?_, ?_, ?_, ?_⟩
    · simpa [handlerStep] using foldl_proj (fun st => st.taskTestCount.failed)
        Event.isTestFailed Event.isTaskStartEv step_taskTestFailed es
        (handlerStep h (.taskStart p)) hall
    · simpa [handlerStep] using foldl_proj (fun st => st.taskTestCount.passed)
        Event.isTestPassed Event.isTaskStartEv step_taskTestPassed es
        (handlerStep h (.taskStart p)) hall
    · simpa [handlerStep] using foldl_proj (fun st => st.taskTestCount.skipped)
        Event.isTestSkipped Event.isTaskStartEv step_taskTestSkipped es
        (handlerStep h (.taskStart p)) hall
    · simpa [handlerStep] using foldl_proj (fun st => st.taskTestCount.todo)
        Event.isTestTodoEv Event.isTaskStartEv step_taskTestTodo es
        (handlerStep h (.taskStart p)) hall
    · simpa [handlerStep] using foldl_proj (fun st => st.taskExpectCount.failed)
        Event.isExpectFailed Event.isTaskStartEv step_taskExpectFailed es
        (handlerStep h (.taskStart p)) hall
    · simpa [handlerStep] using foldl_proj (fun st => st.taskExpectCount.passed)
        Event.isExpectPassed Event.isTaskStartEv step_taskExpectPassed es
        (handlerStep h (.taskStart p)) hall
    · simpa [handlerStep] using foldl_proj (fun st => st.taskExpectCount.skipped)
        Event.isExpectSkipped Event.isTaskStartEv step_taskExpectSkipped es
        (handlerStep h (.taskStart p)) hall
  · intro es h i hall
    obtain ⟨-, h2, h3, h4⟩ := foldl_testExpect es (handlerStep h (.testStart i)) rfl hall
    exact ⟨by simpa [handlerStep] using h2, by simpa [handlerStep] using h3,
      by simpa [handlerStep] using h4⟩

/-- Witness for C3: the run-level passed counter equals the number of
`test:pass` events on a concrete stream. -/
theorem claim_count_consistency_witness :
    (replayH [.testPass 7, .expectPass 8]).runTestCount.passed
      = [Event.testPass 7, Event.expectPass 8].countP Event.isTestPassed :=
  ((claim_count_consistency.1 [.testPass 7, .expectPass 8] (by decide)).2.1)

/-- C10: at every level, the `total` field of a counts record is the
derived sum of the four buckets — no event sequence can make `total`
inconsistent with `failed + passed + skipped + todo`. -/
theorem claim_total_accessor (es : List Event) :
    ((replayH es).runTestCount.total
        = (replayH es).runTestCount.failed + (replayH es).runTestCount.passed
          + (replayH es).runTestCount.skipped + (replayH es).runTestCount.todo)
  ∧ ((replayH es).runExpectCount.total
        = (replayH es).runExpectCount.failed + (replayH es).runExpectCount.passed
          + (replayH es).runExpectCount.skipped + (replayH es).runExpectCount.todo)
  ∧ ((replayH es).fileCount.total
        = (replayH es).fileCount.failed + (replayH es).fileCount.passed
          + (replayH es).fileCount.skipped + (replayH es).fileCount.todo)
  ∧ ((replayH es).targetCount.total
        = (replayH es).targetCount.failed + (replayH es).targetCount.passed
          + (replayH es).targetCount.skipped + (replayH es).targetCount.todo)
  ∧ ((replayH es).taskTestCount.total
        = (replayH es).taskTestCount.failed + (replayH es).taskTestCount.passed
          + (replayH es).taskTestCount.skipped + (replayH es).taskTestCount.todo)
  ∧ ((replayH es).taskExpectCount.total
        = (replayH es).taskExpectCount.failed + (replayH es).taskExpectCount.passed
          + (replayH es).taskExpectCount.skipped + (replayH es).taskExpectCount.todo)
  ∧ ((replayH es).testExpectCount.total
        = (replayH es).testExpectCount.failed + (replayH es).testExpectCount.passed
          + (replayH es).testExpectCount.skipped + (replayH es).testExpectCount.todo)
  ∧ (∀ snap ∈ (replayH es).finishedTasks,
      snap.testCount.total
          = snap.testCount.failed + snap.testCount.passed
            + snap.testCount.skipped + snap.testCount.todo
      ∧ snap.expectCount.total
          = snap.expectCount.failed + snap.expectCount.passed
            + snap.expectCount.skipped + snap.expectCount.todo) :=
  ⟨rfl, rfl, rfl, rfl, rfl, rfl, rfl, fun _ _ => ⟨rfl, rfl⟩⟩


theorem mapSet_idem (k : String) (v : WTask) (l : List (String × WTask)) :
    mapSet k v (mapSet k v l) = mapSet k v l := by
  induction l with
  | nil => simp [mapSet]
  | cons kv rest ih =>
    by_cases hk : kv.1 = k <;> simp [mapSet, hk, ih]

theorem mapGet_mapSet_self (k : String) (v : WTask) (l : List (String × WTask)) :
    mapGet k (mapSet k v l) = some v := by
  induction l with
  | nil => simp [mapSet, mapGet]
  | cons kv rest ih =>
    by_cases hk : kv.1 = k <;> simp [mapSet, mapGet, hk, ih]

theorem onChangedFile_idem (isTestFile : String → Bool) (f : String) (ws : WatchState) :
    onChangedFile isTestFile f (onChangedFile isTestFile f ws)
      = onChangedFile isTestFile f ws := by
  cases hget : mapGet f ws.watchedTestFiles with
  | some t =>
      simp [onChangedFile, hget, mapSet_idem]
  | none =>
      by_cases htf : isTestFile f = true
      · simp [onChangedFile, hget, htf, mapGet_mapSet_self, mapSet_idem]
      · simp [onChangedFile, hget, htf]

theorem iterChanged_ge_one (isTestFile : String → Bool) (f : String) :
    ∀ (n : Nat), 1 ≤ n → ∀ ws : WatchState,
      iterChanged isTestFile f n ws = onChangedFile isTestFile f ws := by
  intro n
  induction n with
  | zero => omega
  | succ n ih =>
    intro _ ws
    by_cases hn : 1 ≤ n
    · show iterChanged isTestFile f n (onChangedFile isTestFile f ws) = _
      rw [ih hn (onChangedFile isTestFile f ws), onChangedFile_idem]
    · have hz : n = 0 := by omega
      subst hz
      rfl

/-- C9: marking a file changed repeatedly is idempotent on the
pending-change and watched maps, and any burst of n ≥ 1 change
notifications for one already-watched file arriving within one debounce
window flushes exactly one batch containing exactly that file's task. -/
theorem claim_watch_debounce :
    (∀ (isTestFile : String → Bool) (f : String) (ws : WatchState),
      onChangedFile isTestFile f (onChangedFile isTestFile f ws)
        = onChangedFile isTestFile f ws)
  ∧ (∀ (isTestFile : String → Bool) (f : String) (t : WTask) (ws : WatchState) (n : Nat),
      1 ≤ n → mapGet f ws.watchedTestFiles = some t → ws.changedTestFiles = [] →
      debounceFire (iterChanged isTestFile f n ws)
        = { ws with timerPending := false, changedTestFiles := [],
                    batches := ws.batches ++ [[t]] }) := by
  refine ⟨onChangedFile_idem, ?_⟩
  intro isTestFile f t ws n hn hget hchanged
  rw [iterChanged_ge_one isTestFile f n hn ws]
  simp [onChangedFile, hget, hchanged, mapSet, debounceFire]

/-- Witness for C9: three change notifications for one watched file yield
one flushed batch holding exactly that file's task. -/
theorem claim_watch_debounce_witness :
    debounceFire (iterChanged (fun _ => true) "x.ts" 3
        { watchedTestFiles := [("x.ts", { filePath := "x.ts" })] })
      = { watchedTestFiles := [("x.ts", { filePath := "x.ts" })],
          timerPending := false, changedTestFiles := [],
          batches := [[{ filePath := "x.ts" }]] } := by
  exact claim_watch_debounce.2 (fun _ => true) "x.ts" { filePath := "x.ts" }
    { watchedTestFiles := [("x.ts", { filePath := "x.ts" })] } 3
    (by decide) rfl rfl

/-- C8: when a sibling fails structural validation the walker publishes a
single `task:error` and abandons the remaining siblings at that level; a
file whose only top-level group directly contains an assertion yields one
`task:error` and no `test:*`/`expect:*` events, while the next file runs
unaffected. -/
theorem claim_structural_validation :
    (∀ (w : WorkerCtx) (rm : RunMode) (s : RunState) (m : Member) (rest : List Member),
      s.cancelled = false → m.validate ≠ 0 →
      visit w rm s (m :: rest) = dispatch w.failFast .taskError s)
  ∧ ((runnerRun {} [{ versionTag := "5.4" }] [fileInvalidNesting, fileCount3] {}).events
      = [.runStart, .targetStart "5.4",
         .taskStart "e.ts", .taskError, .taskEnd "e.ts",
         .taskStart "a.ts", .testStart 10, .expectStart 11, .expectPass 11,
         .expectStart 12, .expectPass 12, .testPass 10,
         .testStart 20, .expectStart 21, .expectPass 21,
         .expectStart 22, .expectFail 22, .testFail 20,
         .testStart 30, .expectStart 31, .expectPass 31, .testPass 30,
         .taskEnd "a.ts", .targetEnd "5.4", .runEnd]) := by
  constructor
  · intro w rm s m rest hcancel hvalid
    rw [visit_cons]
    simp [hcancel, hvalid]
  · rfl

/-- Witness for C8: the abandonment equation at a concrete invalid
sibling list. -/
theorem claim_structural_validation_witness :
    visit {} {} {}
        [.node .describe {} "d" 5 0 false "" none false [mkAssert 6 true], mkTest {} 9 []]
      = dispatch false .taskError {} := by
  exact claim_structural_validation.1 {} {} {}
    (.node .describe {} "d" 5 0 false "" none false [mkAssert 6 true]) [mkTest {} 9 []]
    rfl (by decide)

/-- C4 (counterexample): a group with an attached diagnostic publishes
`task:error`, but the file's traversal is NOT abandoned — the run
continues with `describe:end` and the group's later sibling, whose
`test:*`/`expect:*` events follow the `task:error` in the stream. -/
theorem claim_describe_diag_counterexample :
    (runnerRun {} [{ versionTag := "5.4" }] [fileDescribeDiag] {}).events
      = [.runStart, .targetStart "5.4", .taskStart "b.ts",
         .describeStart 5, .taskError, .describeEnd 5,
         .testStart 10, .expectStart 11, .expectPass 11, .testPass 10,
         .taskEnd "b.ts", .targetEnd "5.4", .runEnd] := rfl

/-- C4 (amended): a group whose resolved mode is not Skip, not Todo and
not only-pruned and whose attached diagnostics are non-empty publishes
`task:error` with those diagnostics and skips its own children, but then
publishes `describe:end` and traversal continues with the remaining
siblings (which the walker visits unless cancellation has been
requested, e.g. by a fail-fast handler reacting to the `task:error`). -/
theorem claim_describe_diag_amended (w : WorkerCtx) (rm : RunMode) (s : RunState)
    (d : Member) (rest : List Member)
    (hbrand : d.brand = .describe)
    (hcancel : s.cancelled = false)
    (hvalid : d.validate = 0)
    (hskip : (resolveRunMode w rm d).skip = false)
    (honly : (w.hasOnly && !(resolveRunMode w rm d).only) = false)
    (htodo : (resolveRunMode w rm d).todo = false)
    (hdiag : 0 < d.diagCount) :
    visit w rm s (d :: rest) =
      visit w rm (dispatch w.failFast (.describeEnd d.start)
        (dispatch w.failFast .taskError
          (dispatch w.failFast (.describeStart d.start) s))) rest := by
  cases d with
  | node b f n st dc iN mt mr er ms =>
    simp only [Member.brand] at hbrand
    subst hbrand
    rw [visit_cons]
    simp only [hcancel, Bool.false_eq_true, if_false, hvalid, ne_eq,
      not_true_eq_false, not_false_eq_true, if_true]
    simp only [Member.start, Member.diagCount] at *
    simp [visitMember, hskip, honly, htodo, hdiag]

/-- Witness for the amended C4 theorem at a concrete group and sibling. -/
theorem claim_describe_diag_amended_witness :
    visit {} {} {} [.node .describe {} "d" 5 1 false "" none false [], mkTest {} 10 []]
      = visit {} {} (dispatch false (.describeEnd 5)
          (dispatch false .taskError (dispatch false (.describeStart 5) {})))
          [mkTest {} 10 []] := by
  exact claim_describe_diag_amended {} {} {}
    (.node .describe {} "d" 5 1 false "" none false []) [mkTest {} 10 []]
    rfl rfl rfl rfl rfl rfl (by decide)

/-- C5 (counterexample): with fail-fast on, 2 targets and 2 files, a
failing first assertion in the first file suppresses all events of the
second file, but the second target still publishes `target:start` and
`target:end`. -/
theorem claim_fail_fast_counterexample :
    (runnerRun { failFast := true } [{ versionTag := "5.4" }, { versionTag := "5.5" }]
        [fileFailFirst, fileSecond] {}).events
      = [.runStart, .targetStart "5.4", .taskStart "f1.ts",
         .testStart 10, .expectStart 11, .expectFail 11, .testFail 10,
         .taskEnd "f1.ts", .targetEnd "5.4",
         .targetStart "5.5", .targetEnd "5.5", .runEnd] := rfl

/-- C5 (amended): once cancellation is requested, a task run emits no
events at all, while a whole target still emits exactly its
`target:start` and `target:end` events and nothing else. -/
theorem claim_fail_fast_amended :
    (∀ (cfg : RunnerConfig) (f : TestFile) (s : RunState),
      s.cancelled = true → taskRun cfg f s = s)
  ∧ (∀ (cfg : RunnerConfig) (files : List TestFile) (s : RunState) (t : Target),
      s.cancelled = true →
      (targetRun cfg files s t).events
        = s.events ++ [.targetStart t.versionTag, .targetEnd t.versionTag]) := by
  have hTask : ∀ (cfg : RunnerConfig) (f : TestFile) (s : RunState),
      s.cancelled = true → taskRun cfg f s = s := by
    intro cfg f s hc
    simp [taskRun, hc]
  refine ⟨hTask, ?_⟩
  intro cfg files s t hc
  have hfold : ∀ (fs : List TestFile) (s2 : RunState), s2.cancelled = true →
      fs.foldl (fun s3 f => taskRun cfg f s3) s2 = s2 := by
    intro fs
    induction fs with
    | nil => intro s2 _; rfl
    | cons f rest ih =>
        intro s2 hc2
        simp only [List.foldl_cons, hTask cfg f s2 hc2]
        exact ih s2 hc2
  have hs2 : (dispatch cfg.failFast (.targetStart t.versionTag) s).cancelled = true := by
    simp [dispatch, hc]
  by_cases hl : t.compilerLoads
  · simp [targetRun, hl, hfold _ _ hs2, dispatch_events]
  · simp [targetRun, hl, dispatch_events]

/-- Witness for the amended C5 theorem: a cancelled state yields only the
target frame events for a target with one file. -/
theorem claim_fail_fast_amended_witness :
    (targetRun { failFast := true } [fileSecond] { cancelled := true, reason := some .failFast }
        { versionTag := "5.5" }).events
      = [.targetStart "5.5", .targetEnd "5.5"] := by
  exact claim_fail_fast_amended.2 { failFast := true } [fileSecond]
    { cancelled := true, reason := some .failFast } { versionTag := "5.5" } rfl

theorem testTerminals_dispatch (ff : Bool) (e : Event) (s : RunState) :
    testTerminals (dispatch ff e s).events
      = testTerminals s.events ++ (testTerminalOf e).toList := by
  cases e <;> simp [dispatch, testTerminals, testTerminalOf, List.filterMap_append]

theorem dispatch_cancelled_of_ff_false (e : Event) (s : RunState) :
    (dispatch false e s).cancelled = s.cancelled := by
  simp [dispatch]

mutual

theorem visitMember_expectTree (w : WorkerCtx) (rm : RunMode) (s : RunState) (m : Member)
    (hm : isExpectTree m = true) (hff : w.failFast = false) :
    testTerminals (visitMember w rm s m).events = testTerminals s.events
      ∧ (visitMember w rm s m).cancelled = s.cancelled := by
  cases m with
  | node b f n st d iN mt mr er ms =>
    rw [isExpectTree, Bool.and_eq_true, beq_iff_eq] at hm
    obtain ⟨hb, hforest⟩ := hm
    subst hb
    obtain ⟨hts, hcs⟩ := visit_expectForest w rm s ms hforest hff
    simp only [visitMember, hff]
    constructor <;>
      (repeat' first
        | split
        | rw [testTerminals_dispatch]
        | rw [dispatch_cancelled_of_ff_false]) <;>
      simp [testTerminals_dispatch, dispatch_cancelled_of_ff_false, testTerminalOf, hts, hcs]

theorem visit_expectForest (w : WorkerCtx) (rm : RunMode) (s : RunState) (ms : List Member)
    (hms : isExpectForest ms = true) (hff : w.failFast = false) :
    testTerminals (visit w rm s ms).events = testTerminals s.events
      ∧ (visit w rm s ms).cancelled = s.cancelled := by
  cases ms with
  | nil => exact ⟨rfl, rfl⟩
  | cons m rest =>
    rw [isExpectForest, Bool.and_eq_true] at hms
    obtain ⟨hm, hrest⟩ := hms
    rw [visit_cons]
    by_cases hc : s.cancelled = true
    · simp [hc]
    · have hval : m.validate = 0 := by
        cases m with
        | node b f n st d iN mt mr er cs =>
          rw [isExpectTree, Bool.and_eq_true, beq_iff_eq] at hm
          obtain ⟨hb, hcs⟩ := hm
          subst hb
          simp only [Member.validate, Member.brand, Member.members]
          rw [List.length_eq_zero, List.filter_eq_nil]
          intro c hcmem
          have : isExpectTree c = true := by
            clear visitMember_expectTree visit_expectForest
            induction cs with
            | nil => simp at hcmem
            | cons x xs ih =>
                rw [isExpectForest, Bool.and_eq_true] at hcs
                rcases List.mem_cons.mp hcmem with h1 | h2
                · subst h1; exact hcs.1
                · exact ih hcs.2 h2
          cases c with
          | node cb _ _ _ _ _ _ _ _ _ =>
            rw [isExpectTree, Bool.and_eq_true, beq_iff_eq] at this
            simp [Member.brand, this.1]
      simp only [Bool.not_eq_true] at hc
      simp only [hc, Bool.false_eq_true, if_false, hval, ne_eq, not_true_eq_false,
        not_false_eq_true, if_true]
      obtain ⟨h1m, h2m⟩ := visitMember_expectTree w rm s m hm hff
      obtain ⟨h1r, h2r⟩ := visit_expectForest w rm (visitMember w rm s m) rest hrest hff
      refine ⟨h1r.trans h1m, ?_⟩
      rw [h2r, h2m, hc]

end

theorem forest_mem_expect (cs : List Member) (h : isExpectForest cs = true) :
    ∀ c ∈ cs, c.brand = .expect := by
  induction cs with
  | nil => intro c hc; simp at hc
  | cons x xs ih =>
    rw [isExpectForest, Bool.and_eq_true] at h
    obtain ⟨hx, hxs⟩ := h
    intro c hc
    rcases List.mem_cons.mp hc with h1 | h2
    · subst h1
      cases c with
      | node cb _ _ _ _ _ _ _ _ _ =>
        rw [isExpectTree, Bool.and_eq_true, beq_iff_eq] at hx
        simpa [Member.brand] using hx.1
    · exact ih hxs c h2

theorem validate_zero_of_forest (m : Member)
    (hb : m.brand = .test ∨ m.brand = .expect)
    (hf : isExpectForest m.members = true) : m.validate = 0 := by
  have hall := forest_mem_expect m.members hf
  rcases hb with hb | hb <;>
    (rw [Member.validate, hb]
     rw [List.length_eq_zero, List.filter_eq_nil_iff]
     intro c hcmem
     simp [hall c hcmem])

theorem hasOnlyForest_of_mem (ms : List Member) (m : Member) (hm : m ∈ ms)
    (ho : m.flags.only = true) : hasOnlyForest ms = true := by
  induction ms with
  | nil => simp at hm
  | cons x xs ih =>
    rw [hasOnlyForest, Bool.or_eq_true]
    rcases List.mem_cons.mp hm with h1 | h2
    · left
      subst h1
      cases m with
      | node b f nn st d iN mt mr er cs =>
        rw [hasOnlyTree]
        simp only [Member.flags] at ho
        simp [ho]
    · exact Or.inr (ih h2)

theorem plainTest_terminal (w : WorkerCtx) (s : RunState) (m : Member)
    (hwo : w.only = none) (hws : w.skip = none) (hwp : w.position = none)
    (hwh : w.hasOnly = true) (hff : w.failFast = false)
    (hpm : plainTest m = true) (hc : s.cancelled = false) :
    ∃ k : TermKind,
      testTerminals (visitMember w {} s m).events
          = testTerminals s.events ++ [(m.start, k)]
      ∧ (if m.flags.only = true then (k = TermKind.pass ∨ k = TermKind.fail)
         else k = TermKind.skip)
      ∧ (visitMember w {} s m).cancelled = false := by
  cases m with
  | node b f n st d iN mt mr er cs =>
    rw [plainTest] at hpm
    simp only [Member.brand, Member.diagCount, Member.flags, Member.members,
      Bool.and_eq_true, beq_iff_eq] at hpm
    obtain ⟨⟨⟨⟨hb, hd⟩, hfs⟩, hft⟩, hforest⟩ := hpm
    subst hb
    subst hd
    have hmode : resolveRunMode w {} (.node .test f n st 0 iN mt mr er cs)
        = { fail := f.fail, only := f.only } := by
      simp [resolveRunMode, hwo, hws, hwp, nameMatches, Member.flags, Member.name,
        Member.start, hfs, hft]
      cases hf1 : f.fail <;> cases hf2 : f.only <;> rfl
    simp only [Member.flags, Member.start]
    simp only [visitMember, hmode, hff]
    obtain ⟨hts, hcs⟩ := visit_expectForest w { fail := f.fail, only := f.only }
      (dispatch false (.testStart st) s) cs hforest hff
    by_cases hfo : f.only = true
    · simp only [hfo] at hts hcs
      simp only [hfo, hwh]
      by_cases hfail2 : 0 <
          (visit w { fail := f.fail, only := true }
            (dispatch false (.testStart st) s) cs).h.testExpectCount.failed
      · refine ⟨TermKind.fail, ?_, by simp, ?_⟩
        · simp only [Bool.false_eq_true, if_false, Bool.or_true, Bool.or_false,
            Bool.true_and, Bool.not_true, Bool.and_false, Bool.false_and,
            gt_iff_lt, decide_eq_true_eq, if_pos hfail2]
          rw [if_neg (by simp), testTerminals_dispatch, hts, testTerminals_dispatch]
          simp [testTerminalOf]
        · simp only [Bool.false_eq_true, if_false, Bool.or_true, Bool.or_false,
            Bool.true_and, Bool.not_true, Bool.and_false, Bool.false_and,
            gt_iff_lt, decide_eq_true_eq, if_pos hfail2]
          rw [if_neg (by simp), dispatch_cancelled_of_ff_false, hcs,
            dispatch_cancelled_of_ff_false]
          exact hc
      · refine ⟨TermKind.pass, ?_, by simp, ?_⟩
        · simp only [Bool.false_eq_true, if_false, Bool.or_true, Bool.or_false,
            Bool.true_and, Bool.not_true, Bool.and_false, Bool.false_and,
            gt_iff_lt, decide_eq_true_eq, if_neg hfail2]
          rw [if_neg (by simp), testTerminals_dispatch, hts, testTerminals_dispatch]
          simp [testTerminalOf]
        · simp only [Bool.false_eq_true, if_false, Bool.or_true, Bool.or_false,
            Bool.true_and, Bool.not_true, Bool.and_false, Bool.false_and,
            gt_iff_lt, decide_eq_true_eq, if_neg hfail2]
          rw [if_neg (by simp), dispatch_cancelled_of_ff_false, hcs,
            dispatch_cancelled_of_ff_false]
          exact hc
    · simp only [Bool.not_eq_true] at hfo
      simp only [hfo] at hts hcs
      simp only [hfo, hwh]
      refine ⟨TermKind.skip, ?_, by simp, ?_⟩
      · simp only [Bool.false_eq_true, if_false, Bool.or_self, Bool.not_false,
          Bool.and_true, Bool.true_and, Bool.false_or, decide_eq_true_eq,
          gt_iff_lt, lt_self_iff_false, Bool.and_false, if_true]
        rw [if_neg (by simp), testTerminals_dispatch, hts, testTerminals_dispatch]
        simp [testTerminalOf]
      · simp only [Bool.false_eq_true, if_false, Bool.or_self, Bool.not_false,
          Bool.and_true, Bool.true_and, Bool.false_or, decide_eq_true_eq,
          gt_iff_lt, lt_self_iff_false, Bool.and_false, if_true]
        rw [if_neg (by simp), dispatch_cancelled_of_ff_false, hcs,
          dispatch_cancelled_of_ff_false]
        exact hc

/-- The pairing between a plain test member and its terminal test event:
matching identity, pass-or-fail for an Only-flagged case, skip
otherwise. -/
def testOutcome (m : Member) (k : Nat × TermKind) : Prop :=
  k.1 = m.start
    ∧ (if m.flags.only = true then (k.2 = TermKind.pass ∨ k.2 = TermKind.fail)
       else k.2 = TermKind.skip)

theorem plainTests_visit (w : WorkerCtx)
    (hwo : w.only = none) (hws : w.skip = none) (hwp : w.position = none)
    (hwh : w.hasOnly = true) (hff : w.failFast = false) :
    ∀ (ms : List Member) (s : RunState), (∀ m ∈ ms, plainTest m = true) →
      s.cancelled = false →
      ∃ ks, testTerminals (visit w {} s ms).events = testTerminals s.events ++ ks
        ∧ List.Forall₂ testOutcome ms ks
        ∧ (visit w {} s ms).cancelled = false := by
  intro ms
  induction ms with
  | nil =>
    intro s _ hc
    exact ⟨[], by simp [visit_nil], List.Forall₂.nil, hc⟩
  | cons m rest ih =>
    intro s hall hc
    have hpm := hall m (List.mem_cons_self m rest)
    have hbrand : m.brand = Brand.test := by
      rw [plainTest] at hpm
      simp only [Bool.and_eq_true, beq_iff_eq] at hpm
      exact hpm.1.1.1.1
    have hforest : isExpectForest m.members = true := by
      rw [plainTest] at hpm
      simp only [Bool.and_eq_true, beq_iff_eq] at hpm
      exact hpm.2
    have hval : m.validate = 0 := validate_zero_of_forest m (Or.inl hbrand) hforest
    obtain ⟨k, hk1, hk2, hk3⟩ := plainTest_terminal w s m hwo hws hwp hwh hff hpm hc
    obtain ⟨ks, h1, h2, h3⟩ :=
      ih (visitMember w {} s m) (fun x hx => hall x (List.mem_cons_of_mem m hx)) hk3
    refine ⟨(m.start, k) :: ks, ?_, List.Forall₂.cons ⟨rfl, hk2⟩ h2, ?_⟩
    · rw [visit_cons]
      simp only [hc, Bool.false_eq_true, if_false, hval, ne_eq, not_true_eq_false,
        not_false_eq_true, if_true]
      rw [h1, hk1]
      simp
    · rw [visit_cons]
      simp only [hc, Bool.false_eq_true, if_false, hval, ne_eq, not_true_eq_false,
        not_false_eq_true, if_true]
      exact h3

theorem forall2_countP (R : Member → (Nat × TermKind) → Prop)
    (p : Member → Bool) (q : Nat × TermKind → Bool)
    (hpq : ∀ a b, R a b → q b = p a) :
    ∀ (as2 : List Member) (bs : List (Nat × TermKind)), List.Forall₂ R as2 bs →
      bs.countP q = as2.countP p := by
  intro as2 bs h
  induction h with
  | nil => rfl
  | cons hr _ ih =>
    rw [List.countP_cons, List.countP_cons, ih, hpq _ _ hr]

theorem forall2_mem_right (R : Member → (Nat × TermKind) → Prop) :
    ∀ (as2 : List Member) (bs : List (Nat × TermKind)), List.Forall₂ R as2 bs →
      ∀ b ∈ bs, ∃ a ∈ as2, R a b := by
  intro as2 bs h
  induction h with
  | nil => intro b hb; simp at hb
  | cons hr htail ih =>
    intro b hb
    rcases List.mem_cons.mp hb with h1 | h2
    · subst h1
      exact ⟨_, List.mem_cons_self _ _, hr⟩
    · obtain ⟨a, ha, har⟩ := ih b h2
      exact ⟨a, List.mem_cons_of_mem _ ha, har⟩

/-- C2: in a file whose three sibling Cases include exactly one
Only-flagged case (and no other Only signal, filter or position), a run
of the file publishes exactly one terminal `test:pass`/`test:fail` (for
the Only-flagged case) and exactly two `test:skip` (for the other two),
for every ordering of the three siblings. -/
theorem claim_only_pruning (p : String) (ms : List Member) (t1 t2 t3 : Member)
    (hperm : ms.Perm [t1, t2, t3])
    (hp1 : plainTest t1 = true) (hp2 : plainTest t2 = true) (hp3 : plainTest t3 = true)
    (ho1 : t1.flags.only = true) (ho2 : t2.flags.only = false) (ho3 : t3.flags.only = false) :
    ((testTerminals (taskRun {} { path := p, members := ms } {}).events).countP
        (fun k => k.2 == TermKind.pass || k.2 == TermKind.fail) = 1)
  ∧ ((testTerminals (taskRun {} { path := p, members := ms } {}).events).countP
        (fun k => k.2 == TermKind.skip) = 2)
  ∧ (∀ k ∈ testTerminals (taskRun {} { path := p, members := ms } {}).events,
        (k.2 = TermKind.pass ∨ k.2 = TermKind.fail) → k.1 = t1.start)
  ∧ (∀ k ∈ testTerminals (taskRun {} { path := p, members := ms } {}).events,
        k.2 = TermKind.skip → (k.1 = t2.start ∨ k.1 = t3.start)) := by
  have hmem : ∀ m ∈ ms, m = t1 ∨ m = t2 ∨ m = t3 := by
    intro m hm
    have := hperm.mem_iff.mp hm
    simpa using this
  have hallp : ∀ m ∈ ms, plainTest m = true := by
    intro m hm
    rcases hmem m hm with h | h | h <;> subst h <;> assumption
  have ht1mem : t1 ∈ ms := hperm.mem_iff.mpr (by simp)
  have honly : hasOnlyForest ms = true := hasOnlyForest_of_mem ms t1 ht1mem ho1
  obtain ⟨ks, h1, h2, h3⟩ :=
    plainTests_visit
      { only := none, skip := none, position := none,
        hasOnly := hasOnlyForest ms || (none : Option String).isSome
          || (none : Option Nat).isSome,
        failFast := false }
      rfl rfl rfl (by simp [honly]) rfl ms
      (dispatch false (.taskStart p) {}) hallp rfl
  have hTT : testTerminals (taskRun {} { path := p, members := ms } {}).events = ks := by
    have hrun : taskRun {} { path := p, members := ms } {}
        = dispatch false (.taskEnd p)
            (visit
              { only := none, skip := none, position := none,
                hasOnly := hasOnlyForest ms || (none : Option String).isSome
                  || (none : Option Nat).isSome,
                failFast := false }
              {} (dispatch false (.taskStart p) {}) ms) := rfl
    rw [hrun, testTerminals_dispatch, h1]
    simp [testTerminals, testTerminalOf, dispatch]
  have hq1 : ∀ a b, testOutcome a b →
      ((fun (k : Nat × TermKind) => k.2 == TermKind.pass || k.2 == TermKind.fail) b)
        = a.flags.only := by
    intro a b hab
    obtain ⟨-, hb⟩ := hab
    by_cases ha : a.flags.only = true
    · simp only [ha, if_true] at hb
      rcases hb with hb | hb <;> simp [hb, ha]
    · simp only [Bool.not_eq_true] at ha
      simp only [ha, Bool.false_eq_true, if_false] at hb
      simp [hb, ha]
  have hq2 : ∀ a b, testOutcome a b →
      ((fun (k : Nat × TermKind) => k.2 == TermKind.skip) b) = !a.flags.only := by
    intro a b hab
    obtain ⟨-, hb⟩ := hab
    by_cases ha : a.flags.only = true
    · simp only [ha, if_true] at hb
      rcases hb with hb | hb <;> simp [hb, ha]
    · simp only [Bool.not_eq_true] at ha
      simp only [ha, Bool.false_eq_true, if_false] at hb
      simp [hb, ha]
  refine ⟨?_, ?_, ?_, ?_⟩
  · rw [hTT, forall2_countP testOutcome (fun a => a.flags.only) _ hq1 ms ks h2,
      hperm.countP_eq]
    simp [List.countP_cons, ho1, ho2, ho3]
  · rw [hTT, forall2_countP testOutcome (fun a => !a.flags.only) _ hq2 ms ks h2,
      hperm.countP_eq]
    simp [List.countP_cons, ho1, ho2, ho3]
  · intro k hk hkind
    rw [hTT] at hk
    obtain ⟨m, hm, hid, hkind2⟩ := forall2_mem_right testOutcome ms ks h2 k hk
    rcases hmem m hm with h | h | h <;> subst h
    · exact hid
    · rw [ho2] at hkind2
      simp only [Bool.false_eq_true, if_false] at hkind2
      rcases hkind with hx | hx <;> rw [hx] at hkind2 <;> cases hkind2
    · rw [ho3] at hkind2
      simp only [Bool.false_eq_true, if_false] at hkind2
      rcases hkind with hx | hx <;> rw [hx] at hkind2 <;> cases hkind2
  · intro k hk hkind
    rw [hTT] at hk
    obtain ⟨m, hm, hid, hkind2⟩ := forall2_mem_right testOutcome ms ks h2 k hk
    rcases hmem m hm with h | h | h <;> subst h
    · rw [ho1] at hkind2
      simp only [if_true] at hkind2
      rcases hkind2 with hx | hx <;> rw [hkind] at hx <;> cases hx
    · exact Or.inl hid
    · exact Or.inr hid

/-- Witness for C2: a concrete ordering with the Only-flagged case in the
middle yields exactly one terminal pass/fail event. -/
theorem claim_only_pruning_witness :
    ((testTerminals (taskRun {}
        { path := "c.ts",
          members := [mkTest {} 10 [mkAssert 11 true],
                      mkTest { only := true } 20 [mkAssert 21 true],
                      mkTest {} 30 [mkAssert 31 true]] } {}).events).countP
      (fun k => k.2 == TermKind.pass || k.2 == TermKind.fail) = 1) := by
  exact (claim_only_pruning "c.ts"
    [mkTest {} 10 [mkAssert 11 true], mkTest { only := true } 20 [mkAssert 21 true],
      mkTest {} 30 [mkAssert 31 true]]
    (mkTest { only := true } 20 [mkAssert 21 true])
    (mkTest {} 10 [mkAssert 11 true])
    (mkTest {} 30 [mkAssert 31 true])
    (List.Perm.swap _ _ _) rfl rfl rfl rfl rfl rfl).1

end Tstyche
